import Mathlib

/-
Shallow embedding of the transaction ledger and analytics engine of
`src/main.py` (class `FinanceTracker`), together with proofs of the
specification's claims about it.

Modelling conventions:
* a Python transaction dict `{"amount": float, "category": str,
  "date": iso-string, "type": str}` becomes the `Transaction` structure;
  amounts are modelled with exact rationals, dates with a calendar-date
  record (the source always stores `date.isoformat()` of a
  `datetime.date`, and compares dates after `date.fromisoformat`, which
  is the lexicographic order on (year, month, day));
* the in-memory store `self.transactions` is passed explicitly as a
  `List Transaction`;
* the persisted JSON file is modelled as a `Json` value (`FileState`
  distinguishes a missing file and one whose content is not valid JSON).
-/

namespace FinanceTracker

/-- Calendar date, as held by Python's `datetime.date`. -/
structure Date where
  year : Nat
  month : Nat
  day : Nat
deriving DecidableEq, Repr

/-- The order of `datetime.date`: lexicographic on (year, month, day). -/
def Date.le (a b : Date) : Prop :=
  a.year < b.year ∨
    (a.year = b.year ∧
      (a.month < b.month ∨ (a.month = b.month ∧ a.day ≤ b.day)))

instance (a b : Date) : Decidable (Date.le a b) := by
  unfold Date.le; exact inferInstance

/-- The invariant `datetime.date` maintains on its fields (its constructor
rejects anything outside these ranges; 9999 is `datetime.MAXYEAR`).
Day-of-month is bounded by 31 here, which is all the serialization
round-trip needs. -/
def Date.valid (d : Date) : Prop :=
  1 ≤ d.year ∧ d.year ≤ 9999 ∧ 1 ≤ d.month ∧ d.month ≤ 12 ∧
    1 ≤ d.day ∧ d.day ≤ 31

instance (d : Date) : Decidable (Date.valid d) := by
  unfold Date.valid; exact inferInstance

/-- One transaction record of the tracker. -/
structure Transaction where
  amount : ℚ
  category : String
  date : Date
  type : String
deriving DecidableEq, Repr

/-- The list `self.predefined_categories` from `FinanceTracker.__init__`. -/
def predefined_categories : List String :=
  ["Salary", "Groceries", "Furniture", "Rent", "Recreation"]

/-- Source `FinanceTracker.add_transaction`: build the record and append it. -/
def add_transaction (transactions : List Transaction) (amount : ℚ)
    (category : String) (date : Date) (transaction_type : String) :
    List Transaction :=
  transactions ++ [⟨amount, category, date, transaction_type⟩]

/-- Source `FinanceTracker.delete_transaction`: delete at `index` when
`0 <= index < len(self.transactions)`, otherwise do nothing. -/
def delete_transaction (transactions : List Transaction) (index : Int) :
    List Transaction :=
  if 0 ≤ index ∧ index < transactions.length then
    transactions.eraseIdx index.toNat
  else
    transactions

/-- The category block of `filter_transactions`: `"Other"` keeps the
categories not in `predefined_categories`; a non-empty value other than
`"All"` keeps exact matches (`category and category != "All"` — a Python
string is truthy iff non-empty). -/
def filterByCategory (category : String) (filtered : List Transaction) :
    List Transaction :=
  if category = "Other" then
    filtered.filter (fun t => decide (t.category ∉ predefined_categories))
  else if category ≠ "" ∧ category ≠ "All" then
    filtered.filter (fun t => decide (t.category = category))
  else
    filtered

/-- The type block of `filter_transactions`. -/
def filterByType (transaction_type : String) (filtered : List Transaction) :
    List Transaction :=
  if transaction_type ≠ "" ∧ transaction_type ≠ "All" then
    filtered.filter (fun t => decide (t.type = transaction_type))
  else
    filtered

/-- The start-date block of `filter_transactions`: keep transactions with
`date >= start_date` (`None` imposes no bound; a `datetime.date` value is
always truthy). -/
def filterByStartDate (start_date : Option Date)
    (filtered : List Transaction) : List Transaction :=
  match start_date with
  | some sd => filtered.filter (fun t => decide (Date.le sd t.date))
  | none => filtered

/-- The end-date block of `filter_transactions`: keep `date <= end_date`. -/
def filterByEndDate (end_date : Option Date)
    (filtered : List Transaction) : List Transaction :=
  match end_date with
  | some ed => filtered.filter (fun t => decide (Date.le t.date ed))
  | none => filtered

/-- Source `FinanceTracker.filter_transactions`: the four blocks applied in the
source's order (category, type, start date, end date). -/
def filter_transactions (transactions : List Transaction)
    (category transaction_type : String)
    (start_date end_date : Option Date) : List Transaction :=
  filterByEndDate end_date
    (filterByStartDate start_date
      (filterByType transaction_type
        (filterByCategory category transactions)))

/-- Source `FinanceTracker.view_balance`: total Income minus total Expense over
the whole store. -/
def view_balance (transactions : List Transaction) : ℚ :=
  let income :=
    ((transactions.filter (fun t => decide (t.type = "Income"))).map
      Transaction.amount).sum
  let expenses :=
    ((transactions.filter (fun t => decide (t.type = "Expense"))).map
      Transaction.amount).sum
  income - expenses

/-- One `totals[t["category"]] += t["amount"]` update on a
`defaultdict(float)`, modelled as an association list that preserves the
insertion order of first occurrence (Python dict semantics): an existing
key is updated in place, a new key is appended. -/
def addToTotals (totals : List (String × ℚ)) (category : String)
    (amount : ℚ) : List (String × ℚ) :=
  match totals with
  | [] => [(category, amount)]
  | (c, a) :: rest =>
    if c = category then (c, a + amount) :: rest
    else (c, a) :: addToTotals rest category amount

/-- The summation loop of `calculate_category_breakdown`: one pass over
the transactions filling `income_totals` and `expense_totals`. -/
def breakdownTotals (transactions : List Transaction) :
    List (String × ℚ) × List (String × ℚ) :=
  transactions.foldl
    (fun totals t =>
      if t.type = "Income" then
        (addToTotals totals.1 t.category t.amount, totals.2)
      else if t.type = "Expense" then
        (totals.1, addToTotals totals.2 t.category t.amount)
      else totals)
    ([], [])

/-- Source `FinanceTracker.calculate_category_breakdown`: per-category
percentages of each type's total; a percentage is
`amount / total * 100` when the type's total is `> 0`, else `0`. -/
def calculate_category_breakdown (transactions : List Transaction) :
    List (String × ℚ) × List (String × ℚ) :=
  let totals := breakdownTotals transactions
  let total_income := (totals.1.map Prod.snd).sum
  let income_percentages := totals.1.map
    (fun p => (p.1, if 0 < total_income then p.2 / total_income * 100 else 0))
  let total_expense := (totals.2.map Prod.snd).sum
  let expense_percentages := totals.2.map
    (fun p => (p.1, if 0 < total_expense then p.2 / total_expense * 100 else 0))
  (income_percentages, expense_percentages)

/-- Grand total of the Income side of the breakdown (the source's
`total_income = sum(income_totals.values())`). -/
def incomeGrandTotal (transactions : List Transaction) : ℚ :=
  ((breakdownTotals transactions).1.map Prod.snd).sum

/-- Grand total of the Expense side of the breakdown. -/
def expenseGrandTotal (transactions : List Transaction) : ℚ :=
  ((breakdownTotals transactions).2.map Prod.snd).sum

/-- The digit character for `n < 10`, as produced by Python's decimal
formatting. -/
def digitChar (n : Nat) : Char :=
  Char.ofNat (48 + n)

/-- Value of a decimal digit character, `none` on a non-digit. -/
def digitVal (c : Char) : Option Nat :=
  if '0' ≤ c ∧ c ≤ '9' then some (c.toNat - 48) else none

/-- Python `datetime.date.isoformat`: `YYYY-MM-DD` with zero padding (years of
valid dates fit in four digits). -/
def Date.isoformat (d : Date) : String :=
  String.mk
    [digitChar (d.year / 1000 % 10), digitChar (d.year / 100 % 10),
     digitChar (d.year / 10 % 10), digitChar (d.year % 10), '-',
     digitChar (d.month / 10 % 10), digitChar (d.month % 10), '-',
     digitChar (d.day / 10 % 10), digitChar (d.day % 10)]

/-- Python `datetime.date.fromisoformat` restricted to the shape the tracker
writes: exactly `YYYY-MM-DD` with decimal digits. -/
def Date.fromisoformat (s : String) : Option Date :=
  match s.toList with
  | [y1, y2, y3, y4, dash1, m1, m2, dash2, d1, d2] =>
    if dash1 = '-' ∧ dash2 = '-' then do
      let a1 ← digitVal y1
      let a2 ← digitVal y2
      let a3 ← digitVal y3
      let a4 ← digitVal y4
      let b1 ← digitVal m1
      let b2 ← digitVal m2
      let c1 ← digitVal d1
      let c2 ← digitVal d2
      some ⟨1000 * a1 + 100 * a2 + 10 * a3 + a4, 10 * b1 + b2, 10 * c1 + c2⟩
    else none
  | _ => none

/-- JSON values, the persisted document of `save_transactions` (numbers
carry the exact value of the stored amount). -/
inductive Json where
  | num (q : ℚ)
  | str (s : String)
  | arr (items : List Json)
  | obj (fields : List (String × Json))

/-- The dict built by `add_transaction`, as serialized by `json.dump`:
four fields, the date as its `isoformat` string. -/
def encodeTransaction (t : Transaction) : Json :=
  Json.obj
    [("amount", Json.num t.amount), ("category", Json.str t.category),
     ("date", Json.str t.date.isoformat), ("type", Json.str t.type)]

/-- Source `FinanceTracker.save_transactions`: the whole list as one JSON
array, overwriting the previous file content. -/
def save_transactions (transactions : List Transaction) : Json :=
  Json.arr (transactions.map encodeTransaction)

/-- Reading one persisted record back into the data model. The source
keeps the loaded dict as-is (the date stays a string); decoding into
`Transaction` inverts `encodeTransaction`. -/
def decodeTransaction : Json → Option Transaction
  | Json.obj [(k1, Json.num a), (k2, Json.str c),
      (k3, Json.str ds), (k4, Json.str ty)] =>
    if k1 = "amount" ∧ k2 = "category" ∧ k3 = "date" ∧ k4 = "type" then
      (Date.fromisoformat ds).map (fun d => ⟨a, c, d, ty⟩)
    else none
  | _ => none

/-- Decoding the persisted document. -/
def decodeTransactions : Json → Option (List Transaction)
  | Json.arr items => items.mapM decodeTransaction
  | _ => none

/-- State of the backing file as `load_transactions` can encounter it:
missing (`FileNotFoundError`), not valid JSON (`json.JSONDecodeError`),
or a JSON document. -/
inductive FileState where
  | absent
  | malformed
  | content (j : Json)

/-- Source `FinanceTracker.load_transactions`: a missing or unparseable file
falls back to the empty list; JSON content is read back. (`none` marks
content that is valid JSON but not a list of transaction records — the
source stores such a value unvalidated, outside the data model.) -/
def load_transactions : FileState → Option (List Transaction)
  | FileState.absent => some []
  | FileState.malformed => some []
  | FileState.content j => decodeTransactions j

/-! Spec-side predicates for the filter, written from the
specification's wording to be compared with the source-translated
`filter_transactions`. -/

/-- Spec wording: `"All"` or empty means no category restriction,
`"Other"` keeps categories outside the predefined five, any other value
keeps exact matches. -/
def categoryPredSpec (category : String) (t : Transaction) : Prop :=
  if category = "All" ∨ category = "" then True
  else if category = "Other" then t.category ∉ predefined_categories
  else t.category = category

/-- Spec wording: `"All"` or empty means no type restriction, otherwise
exact match. -/
def typePredSpec (transaction_type : String) (t : Transaction) : Prop :=
  if transaction_type = "All" ∨ transaction_type = "" then True
  else t.type = transaction_type

/-- Spec wording: inclusive lower bound when a start date is given. -/
def startDatePredSpec (start_date : Option Date) (t : Transaction) : Prop :=
  match start_date with
  | some d => Date.le d t.date
  | none => True

/-- Spec wording: inclusive upper bound when an end date is given. -/
def endDatePredSpec (end_date : Option Date) (t : Transaction) : Prop :=
  match end_date with
  | some d => Date.le t.date d
  | none => True

instance (category : String) (t : Transaction) :
    Decidable (categoryPredSpec category t) := by
  unfold categoryPredSpec; exact inferInstance

instance (transaction_type : String) (t : Transaction) :
    Decidable (typePredSpec transaction_type t) := by
  unfold typePredSpec; exact inferInstance

instance : ∀ (start_date : Option Date) (t : Transaction),
    Decidable (startDatePredSpec start_date t)
  | some d, t => decidable_of_iff (Date.le d t.date) Iff.rfl
  | none, _ => decidable_of_iff True Iff.rfl

instance : ∀ (end_date : Option Date) (t : Transaction),
    Decidable (endDatePredSpec end_date t)
  | some d, t => decidable_of_iff (Date.le t.date d) Iff.rfl
  | none, _ => decidable_of_iff True Iff.rfl

lemma mem_filterByCategory (l : List Transaction) (category : String)
    (t : Transaction) :
    t ∈ filterByCategory category l ↔ t ∈ l ∧ categoryPredSpec category t := by
  unfold filterByCategory categoryPredSpec
  by_cases hO : category = "Other"
  · subst hO
    simp [List.mem_filter]
  · by_cases h1 : category = ""
    · simp [h1]
    · by_cases h2 : category = "All"
      · simp [h2]
      · simp [hO, h1, h2, List.mem_filter]

lemma mem_filterByType (l : List Transaction) (transaction_type : String)
    (t : Transaction) :
    t ∈ filterByType transaction_type l ↔
      t ∈ l ∧ typePredSpec transaction_type t := by
  unfold filterByType typePredSpec
  by_cases h1 : transaction_type = ""
  · simp [h1]
  · by_cases h2 : transaction_type = "All"
    · simp [h2]
    · simp [h1, h2, List.mem_filter]

lemma mem_filterByStartDate (l : List Transaction) (start_date : Option Date)
    (t : Transaction) :
    t ∈ filterByStartDate start_date l ↔
      t ∈ l ∧ startDatePredSpec start_date t := by
  cases start_date <;> simp [filterByStartDate, startDatePredSpec, List.mem_filter]

lemma mem_filterByEndDate (l : List Transaction) (end_date : Option Date)
    (t : Transaction) :
    t ∈ filterByEndDate end_date l ↔ t ∈ l ∧ endDatePredSpec end_date t := by
  cases end_date <;> simp [filterByEndDate, endDatePredSpec, List.mem_filter]

lemma filterByCategory_sublist (category : String) (l : List Transaction) :
    (filterByCategory category l).Sublist l := by
  unfold filterByCategory
  split
  · exact List.filter_sublist l
  · split
    · exact List.filter_sublist l
    · exact List.Sublist.refl l

lemma filterByType_sublist (transaction_type : String) (l : List Transaction) :
    (filterByType transaction_type l).Sublist l := by
  unfold filterByType
  split
  · exact List.filter_sublist l
  · exact List.Sublist.refl l

lemma filterByStartDate_sublist (start_date : Option Date)
    (l : List Transaction) : (filterByStartDate start_date l).Sublist l := by
  cases start_date
  · exact List.Sublist.refl l
  · exact List.filter_sublist l

lemma filterByEndDate_sublist (end_date : Option Date)
    (l : List Transaction) : (filterByEndDate end_date l).Sublist l := by
  cases end_date
  · exact List.Sublist.refl l
  · exact List.filter_sublist l

/-- C1: a transaction is in the output of `filter_transactions` iff it is
in the input and satisfies the category, type, start-date and end-date
predicates of the specification, conjunctively. -/
theorem filter_transactions_mem_iff (transactions : List Transaction)
    (category transaction_type : String) (start_date end_date : Option Date)
    (t : Transaction) :
    t ∈ filter_transactions transactions category transaction_type
        start_date end_date ↔
      t ∈ transactions ∧ categoryPredSpec category t ∧
        typePredSpec transaction_type t ∧ startDatePredSpec start_date t ∧
        endDatePredSpec end_date t := by
  unfold filter_transactions
  rw [mem_filterByEndDate, mem_filterByStartDate, mem_filterByType,
    mem_filterByCategory]
  tauto

/-- C1 witness: a concrete instance of the filter characterization. -/
theorem filter_transactions_mem_iff_witness :
    let t : Transaction := ⟨25, "Coffee", ⟨2024, 1, 10⟩, "Expense"⟩
    t ∈ filter_transactions [⟨100, "Salary", ⟨2024, 1, 1⟩, "Income"⟩, t]
        "Other" "Expense" (some ⟨2024, 1, 5⟩) (some ⟨2024, 1, 31⟩) := by
  intro t
  exact (filter_transactions_mem_iff _ "Other" "Expense" _ _ t).mpr
    (by refine ⟨by decide, ?_, ?_, ?_, ?_⟩ <;> decide)

/-- C2: an in-bounds `delete_transaction` removes exactly the element at
the given position, keeping the others in order and shortening the list
by one; an out-of-bounds index (negative or at/after the end) leaves the
list unchanged. -/
theorem delete_transaction_spec (transactions : List Transaction)
    (index : Int) :
    (0 ≤ index ∧ index < transactions.length →
      delete_transaction transactions index =
        transactions.take index.toNat ++
          transactions.drop (index.toNat + 1) ∧
      (delete_transaction transactions index).length =
        transactions.length - 1) ∧
    (¬(0 ≤ index ∧ index < transactions.length) →
      delete_transaction transactions index = transactions) := by
  constructor
  · intro h
    have hlt : index.toNat < transactions.length := by omega
    unfold delete_transaction
    rw [if_pos h]
    refine ⟨List.eraseIdx_eq_take_drop_succ transactions index.toNat, ?_⟩
    rw [List.length_eraseIdx]
    simp [hlt]
  · intro h
    unfold delete_transaction
    rw [if_neg h]

/-- C2 witness: deleting index 1 from a three-element store, and the
no-op on index 5. -/
theorem delete_transaction_spec_witness :
    let a : Transaction := ⟨100, "Salary", ⟨2024, 1, 1⟩, "Income"⟩
    let b : Transaction := ⟨50, "Groceries", ⟨2024, 1, 5⟩, "Expense"⟩
    let c : Transaction := ⟨25, "Rent", ⟨2024, 1, 10⟩, "Expense"⟩
    delete_transaction [a, b, c] 1 = [a, c] ∧
      (delete_transaction [a, b, c] 1).length = 2 ∧
      delete_transaction [a, b, c] 5 = [a, b, c] ∧
      delete_transaction [a, b, c] (-1) = [a, b, c] := by
  intro a b c
  have h1 := (delete_transaction_spec [a, b, c] 1).1 (by constructor <;> decide)
  have h2 := (delete_transaction_spec [a, b, c] 5).2 (by decide)
  have h3 := (delete_transaction_spec [a, b, c] (-1)).2 (by decide)
  exact ⟨h1.1, h1.2, h2, h3⟩

/-- Summation per type as the specification words it: a running total
over the sequence that adds the amounts of the given type. -/
def sumByTypeSpec (transaction_type : String)
    (transactions : List Transaction) : ℚ :=
  transactions.foldl
    (fun acc t => if t.type = transaction_type then acc + t.amount else acc) 0

lemma foldl_add_if_eq_sum (transaction_type : String)
    (l : List Transaction) (acc : ℚ) :
    l.foldl
        (fun a t => if t.type = transaction_type then a + t.amount else a)
        acc =
      acc + ((l.filter (fun t => decide (t.type = transaction_type))).map
        Transaction.amount).sum := by
  induction l generalizing acc with
  | nil => simp
  | cons h tl ih =>
    by_cases hh : h.type = transaction_type
    · simp [hh, ih]
      ring
    · simp [hh, ih]

/-- C3: `view_balance` is the sum of Income amounts minus the sum of
Expense amounts over the entire store, and the empty store has balance
zero. -/
theorem view_balance_spec (transactions : List Transaction) :
    view_balance transactions =
      sumByTypeSpec "Income" transactions -
        sumByTypeSpec "Expense" transactions ∧
    view_balance [] = 0 := by
  constructor
  · unfold view_balance sumByTypeSpec
    rw [foldl_add_if_eq_sum, foldl_add_if_eq_sum]
    ring
  · simp [view_balance]

/-- C5: the all-pass arguments make `filter_transactions` the identity. -/
theorem filter_transactions_all_id (transactions : List Transaction) :
    filter_transactions transactions "All" "All" none none = transactions := by
  simp [filter_transactions, filterByCategory, filterByType,
    filterByStartDate, filterByEndDate]

/-- C8: `add_transaction` appends exactly one new record built from its
arguments: the length grows by one, every existing position is
unchanged, and the new record sits at the old length. -/
theorem add_transaction_spec (transactions : List Transaction) (amount : ℚ)
    (category : String) (date : Date) (transaction_type : String) :
    (add_transaction transactions amount category date
        transaction_type).length = transactions.length + 1 ∧
    (∀ i, i < transactions.length →
      (add_transaction transactions amount category date
          transaction_type)[i]? = transactions[i]?) ∧
    (add_transaction transactions amount category date
        transaction_type)[transactions.length]? =
      some ⟨amount, category, date, transaction_type⟩ := by
  refine ⟨by simp [add_transaction], fun i hi => ?_, by simp [add_transaction]⟩
  unfold add_transaction
  rw [List.getElem?_append_left hi]

/-- C8 witness: appending to a one-element store. -/
theorem add_transaction_spec_witness :
    let a : Transaction := ⟨100, "Salary", ⟨2024, 1, 1⟩, "Income"⟩
    (add_transaction [a] 50 "Groceries" ⟨2024, 1, 5⟩ "Expense").length = 2 ∧
      (add_transaction [a] 50 "Groceries" ⟨2024, 1, 5⟩ "Expense")[0]? =
        [a][0]? ∧
      (add_transaction [a] 50 "Groceries" ⟨2024, 1, 5⟩ "Expense")[1]? =
        some ⟨50, "Groceries", ⟨2024, 1, 5⟩, "Expense"⟩ := by
  intro a
  have h := add_transaction_spec [a] 50 "Groceries" ⟨2024, 1, 5⟩ "Expense"
  exact ⟨h.1, h.2.1 0 (by decide), h.2.2⟩

/-- C9: the output of `filter_transactions` is a sublist of its input —
every output element comes from the input, with no higher multiplicity,
in the input's relative order. -/
theorem filter_transactions_sublist (transactions : List Transaction)
    (category transaction_type : String)
    (start_date end_date : Option Date) :
    (filter_transactions transactions category transaction_type
        start_date end_date).Sublist transactions := by
  unfold filter_transactions
  exact (filterByEndDate_sublist end_date _).trans
    ((filterByStartDate_sublist start_date _).trans
      ((filterByType_sublist transaction_type _).trans
        (filterByCategory_sublist category transactions)))

lemma sum_map_div_mul (l : List (String × ℚ)) (T : ℚ) :
    (l.map (fun p => p.2 / T * 100)).sum = (l.map Prod.snd).sum / T * 100 := by
  induction l with
  | nil => simp
  | cons h tl ih =>
    simp only [List.map_cons, List.sum_cons, ih]
    ring

/-- C4 (amended): for each type whose grand total is positive, the
percentages sum to exactly 100; for each type whose grand total is not
positive, every listed percentage is 0. -/
theorem calculate_category_breakdown_sum (transactions : List Transaction) :
    (0 < incomeGrandTotal transactions →
      (((calculate_category_breakdown transactions).1.map Prod.snd).sum
        = 100)) ∧
    (¬0 < incomeGrandTotal transactions →
      ∀ p ∈ (calculate_category_breakdown transactions).1, p.2 = 0) ∧
    (0 < expenseGrandTotal transactions →
      (((calculate_category_breakdown transactions).2.map Prod.snd).sum
        = 100)) ∧
    (¬0 < expenseGrandTotal transactions →
      ∀ p ∈ (calculate_category_breakdown transactions).2, p.2 = 0) := by
  unfold calculate_category_breakdown incomeGrandTotal expenseGrandTotal
  refine ⟨fun h => ?_, fun h p hp => ?_, fun h => ?_, fun h p hp => ?_⟩
  · simp only [List.map_map, Function.comp_def, if_pos h]
    rw [sum_map_div_mul, div_self (ne_of_gt h)]
    norm_num
  · simp only [List.mem_map] at hp
    obtain ⟨q, hq, rfl⟩ := hp
    simp [if_neg h]
  · simp only [List.map_map, Function.comp_def, if_pos h]
    rw [sum_map_div_mul, div_self (ne_of_gt h)]
    norm_num
  · simp only [List.mem_map] at hp
    obtain ⟨q, hq, rfl⟩ := hp
    simp [if_neg h]

/-- C4 witness: one income of 5 (total positive, sum 100) and one
expense of -3 (total negative, all percentages 0). -/
theorem calculate_category_breakdown_sum_witness :
    let ts : List Transaction :=
      [⟨5, "Salary", ⟨2024, 1, 1⟩, "Income"⟩,
       ⟨-3, "Rent", ⟨2024, 1, 2⟩, "Expense"⟩]
    ((calculate_category_breakdown ts).1.map Prod.snd).sum = 100 ∧
      ∀ p ∈ (calculate_category_breakdown ts).2, p.2 = 0 := by
  intro ts
  have h := calculate_category_breakdown_sum ts
  refine ⟨h.1 ?_, h.2.2.2 ?_⟩
  · simp +decide [ts, incomeGrandTotal, breakdownTotals, addToTotals]
  · simp +decide [ts, expenseGrandTotal, breakdownTotals, addToTotals]

/-- C4 counterexample: a single Income of -1 has a nonzero grand total,
yet its percentage is 0 (the source tests `total > 0`, not
`total != 0`), so the percentages sum to 0, not 100. -/
theorem calculate_category_breakdown_nonzero_cex :
    incomeGrandTotal [⟨-1, "Salary", ⟨2024, 1, 1⟩, "Income"⟩] ≠ 0 ∧
      ((calculate_category_breakdown
          [⟨-1, "Salary", ⟨2024, 1, 1⟩, "Income"⟩]).1.map Prod.snd).sum
        ≠ 100 := by
  constructor
  · simp +decide [incomeGrandTotal, breakdownTotals, addToTotals]
  · simp +decide [calculate_category_breakdown, breakdownTotals, addToTotals]

lemma mem_keys_addToTotals (l : List (String × ℚ)) (c category : String)
    (amount : ℚ) :
    c ∈ (addToTotals l category amount).map Prod.fst ↔
      c ∈ l.map Prod.fst ∨ category = c := by
  induction l with
  | nil => simp [addToTotals, eq_comm]
  | cons h tl ih =>
    obtain ⟨c1, a1⟩ := h
    by_cases hc : c1 = category
    · subst hc
      simp [addToTotals]
      tauto
    · simp [addToTotals, hc, ih]
      tauto

lemma mem_keys_breakdownTotals_aux (c : String) (ts : List Transaction) :
    ∀ p : List (String × ℚ) × List (String × ℚ),
      (c ∈ (ts.foldl
            (fun totals t =>
              if t.type = "Income" then
                (addToTotals totals.1 t.category t.amount, totals.2)
              else if t.type = "Expense" then
                (totals.1, addToTotals totals.2 t.category t.amount)
              else totals)
            p).1.map Prod.fst ↔
        c ∈ p.1.map Prod.fst ∨
          ∃ t ∈ ts, t.type = "Income" ∧ t.category = c) ∧
      (c ∈ (ts.foldl
            (fun totals t =>
              if t.type = "Income" then
                (addToTotals totals.1 t.category t.amount, totals.2)
              else if t.type = "Expense" then
                (totals.1, addToTotals totals.2 t.category t.amount)
              else totals)
            p).2.map Prod.fst ↔
        c ∈ p.2.map Prod.fst ∨
          ∃ t ∈ ts, t.type = "Expense" ∧ t.category = c) := by
  induction ts with
  | nil => intro p; simp
  | cons t tl ih =>
    intro p
    by_cases hI : t.type = "Income"
    · have hE : ¬ t.type = "Expense" := by simp [hI]
      simp only [List.foldl_cons, if_pos hI]
      constructor
      · rw [(ih _).1]
        simp only [mem_keys_addToTotals, List.exists_mem_cons_iff, hI,
          true_and]
        tauto
      · rw [(ih _).2]
        simp only [List.exists_mem_cons_iff, hE, false_and, false_or]
    · by_cases hE : t.type = "Expense"
      · simp only [List.foldl_cons, if_neg hI, if_pos hE]
        constructor
        · rw [(ih _).1]
          simp only [List.exists_mem_cons_iff, hI, false_and, false_or]
        · rw [(ih _).2]
          simp only [mem_keys_addToTotals, List.exists_mem_cons_iff, hE,
            true_and]
          tauto
      · simp only [List.foldl_cons, if_neg hI, if_neg hE]
        constructor
        · rw [(ih _).1]
          simp only [List.exists_mem_cons_iff, hI, false_and, false_or]
        · rw [(ih _).2]
          simp only [List.exists_mem_cons_iff, hE, false_and, false_or]

lemma breakdown_fst_keys (transactions : List Transaction) :
    (calculate_category_breakdown transactions).1.map Prod.fst =
      (breakdownTotals transactions).1.map Prod.fst := by
  simp only [calculate_category_breakdown]
  rw [List.map_map]
  rfl

lemma breakdown_snd_keys (transactions : List Transaction) :
    (calculate_category_breakdown transactions).2.map Prod.fst =
      (breakdownTotals transactions).2.map Prod.fst := by
  simp only [calculate_category_breakdown]
  rw [List.map_map]
  rfl

/-- C10: the key set of each percentage mapping is exactly the set of
categories occurring among the input's transactions of that type. -/
theorem calculate_category_breakdown_keys (transactions : List Transaction)
    (c : String) :
    (c ∈ (calculate_category_breakdown transactions).1.map Prod.fst ↔
      ∃ t ∈ transactions, t.type = "Income" ∧ t.category = c) ∧
    (c ∈ (calculate_category_breakdown transactions).2.map Prod.fst ↔
      ∃ t ∈ transactions, t.type = "Expense" ∧ t.category = c) := by
  have h := mem_keys_breakdownTotals_aux c transactions ([], [])
  rw [breakdown_fst_keys, breakdown_snd_keys]
  unfold breakdownTotals
  rw [h.1, h.2]
  simp

/-- C10 witness: a concrete store whose Income keys are exactly
`Salary` and whose Expense keys exclude it. -/
theorem calculate_category_breakdown_keys_witness :
    let ts : List Transaction :=
      [⟨100, "Salary", ⟨2024, 1, 1⟩, "Income"⟩,
       ⟨50, "Groceries", ⟨2024, 1, 5⟩, "Expense"⟩]
    "Salary" ∈ (calculate_category_breakdown ts).1.map Prod.fst ∧
      "Salary" ∉ (calculate_category_breakdown ts).2.map Prod.fst := by
  intro ts
  constructor
  · exact (calculate_category_breakdown_keys ts "Salary").1.mpr
      ⟨⟨100, "Salary", ⟨2024, 1, 1⟩, "Income"⟩, by simp [ts], rfl, rfl⟩
  · intro hmem
    rcases (calculate_category_breakdown_keys ts "Salary").2.mp hmem with
      ⟨t, ht, hty, hcat⟩
    simp [ts] at ht
    rcases ht with rfl | rfl
    · exact absurd hty (by decide)
    · exact absurd hcat (by decide)

lemma digitVal_digitChar (n : Nat) (h : n < 10) :
    digitVal (digitChar n) = some n := by
  interval_cases n <;> decide

lemma digitVal_digitChar_mod (n : Nat) :
    digitVal (digitChar (n % 10)) = some (n % 10) :=
  digitVal_digitChar _ (Nat.mod_lt _ (by norm_num))

lemma fromisoformat_isoformat (d : Date) (h : d.valid) :
    Date.fromisoformat d.isoformat = some d := by
  obtain ⟨y, m, dd⟩ := d
  obtain ⟨h1, h2, h3, h4, h5, h6⟩ := h
  dsimp only at h1 h2 h3 h4 h5 h6
  have e : (Date.isoformat ⟨y, m, dd⟩).toList =
      [digitChar (y / 1000 % 10), digitChar (y / 100 % 10),
       digitChar (y / 10 % 10), digitChar (y % 10), '-',
       digitChar (m / 10 % 10), digitChar (m % 10), '-',
       digitChar (dd / 10 % 10), digitChar (dd % 10)] := rfl
  unfold Date.fromisoformat
  rw [e]
  dsimp only
  rw [if_pos ⟨rfl, rfl⟩]
  simp [digitVal_digitChar_mod, Date.mk.injEq]
  omega

lemma decode_encode (t : Transaction) (h : t.date.valid) :
    decodeTransaction (encodeTransaction t) = some t := by
  obtain ⟨a, c, d, ty⟩ := t
  unfold encodeTransaction decodeTransaction
  dsimp only
  rw [if_pos ⟨rfl, rfl, rfl, rfl⟩, fromisoformat_isoformat d h]
  rfl

lemma decode_save : ∀ ts : List Transaction, (∀ t ∈ ts, t.date.valid) →
    decodeTransactions (save_transactions ts) = some ts := by
  intro ts
  induction ts with
  | nil => intro _; rfl
  | cons t tl ih =>
    intro h
    have htl := ih (fun x hx => h x (List.mem_cons_of_mem t hx))
    simp only [save_transactions, decodeTransactions, List.map_cons,
      List.mapM_cons] at htl ⊢
    rw [decode_encode t (h t (List.mem_cons_self t tl)), htl]
    rfl

/-- C6: saving the store and loading it back returns exactly the same
transactions in the same order, for every store whose dates satisfy the
`datetime.date` field invariant. -/
theorem save_load_roundtrip (transactions : List Transaction)
    (h : ∀ t ∈ transactions, t.date.valid) :
    load_transactions (FileState.content (save_transactions transactions)) =
      some transactions := by
  have := decode_save transactions h
  simpa [load_transactions] using this

/-- C6 witness: a concrete two-transaction store round-trips. -/
theorem save_load_roundtrip_witness :
    (∀ t ∈ ([⟨100, "Salary", ⟨2024, 1, 1⟩, "Income"⟩,
        ⟨50, "Groceries", ⟨2024, 1, 5⟩, "Expense"⟩] : List Transaction),
      t.date.valid) ∧
    load_transactions (FileState.content (save_transactions
        [⟨100, "Salary", ⟨2024, 1, 1⟩, "Income"⟩,
         ⟨50, "Groceries", ⟨2024, 1, 5⟩, "Expense"⟩])) =
      some [⟨100, "Salary", ⟨2024, 1, 1⟩, "Income"⟩,
        ⟨50, "Groceries", ⟨2024, 1, 5⟩, "Expense"⟩] := by
  constructor
  · decide
  · exact save_load_roundtrip _ (by decide)

/-- C7: a missing backing file and one whose content is not well-formed
both initialize the store to the empty sequence, with no error
surfaced. -/
theorem load_transactions_fallback :
    load_transactions FileState.absent = some [] ∧
      load_transactions FileState.malformed = some [] :=
  ⟨rfl, rfl⟩

end FinanceTracker
